import Mathlib

/-!
Verification development for the annotation-tool mining page
(`src/app/routes/mine.tsx`): a shallow embedding of the progress
reconciliation state machine, the poll-tick handler, the phase
classification, the start/resolve/reject transitions and the job
selector, together with theorems settling the spec's claims.

JavaScript numbers that can be NaN are modelled as `Option ℚ` with
`none` standing for NaN; the comparison, `Math.max`, `Math.min` and
subtraction helpers follow the IEEE behaviour JS exposes (comparisons
with NaN are false, max/min propagate NaN).  Field values read off a
status payload are modelled by `JsVal`, whose `Number(...)` conversion
is `jsToNumber` (`Number(null) = 0`, `Number(undefined) = NaN`, a
string carries its numeric conversion).
-/

namespace MinePage

/-- A JavaScript value as it appears in a status payload field. A string
is recorded together with the result of `Number()` on it (`none` = NaN). -/
inductive JsVal where
  | num (q : ℚ)
  | nan
  | str (conv : Option ℚ)
  | nullv
  | undef
deriving DecidableEq

/-- `Number(v)` with NaN as `none`. -/
def jsToNumber : JsVal → Option ℚ
  | .num q => some q
  | .nan => none
  | .str c => c
  | .nullv => some 0
  | .undef => none

/-- `typeof v === "number"` (true for NaN as well). -/
def typeofNumber : JsVal → Bool
  | .num _ => true
  | .nan => true
  | _ => false

/-- `Math.max` on possibly-NaN numbers. -/
def jsMax : Option ℚ → Option ℚ → Option ℚ
  | some x, some y => some (max x y)
  | _, _ => none

/-- `Math.min` on possibly-NaN numbers. -/
def jsMin : Option ℚ → Option ℚ → Option ℚ
  | some x, some y => some (min x y)
  | _, _ => none

/-- `a >= b`; false when either side is NaN. -/
def jsGe : Option ℚ → Option ℚ → Bool
  | some x, some y => decide (y ≤ x)
  | _, _ => false

/-- `a > b`; false when either side is NaN. -/
def jsGt : Option ℚ → Option ℚ → Bool
  | some x, some y => decide (y < x)
  | _, _ => false

/-- `a < b`; false when either side is NaN. -/
def jsLt : Option ℚ → Option ℚ → Bool
  | some x, some y => decide (x < y)
  | _, _ => false

/-- `a <= b`; false when either side is NaN. -/
def jsLe : Option ℚ → Option ℚ → Bool
  | some x, some y => decide (x ≤ y)
  | _, _ => false

/-- `a - q` (NaN propagates). -/
def jsSub (a : Option ℚ) (q : ℚ) : Option ℚ := a.map (fun x => x - q)

/-- `a || dflt` for an optional string: `null`/`undefined`/`""` are falsy. -/
def jsOrString (a : Option String) (dflt : String) : String :=
  match a with
  | some s => if s = "" then dflt else s
  | none => dflt

/-- Display phase labels used by the page. -/
inductive Phase where
  | sampling
  | search_trials
  | saving
deriving DecidableEq

/-- A raw phase counter as found in `data.phases` (fields may be absent
or non-numeric, hence `JsVal`). -/
structure JsCounter where
  current : JsVal
  total : JsVal
deriving DecidableEq

/-- The `data.phases` record: the three counters the handler looks at. -/
structure JsPhases where
  search_trials : Option JsCounter
  sampling : Option JsCounter
  saving : Option JsCounter
deriving DecidableEq

/-- The `phaseDetail` React state: `{ current, total, phase }`.  The
stored `current`/`total` passed a `typeof === "number"` check, so they
are numbers, possibly NaN (`none`). -/
structure PhaseDetail where
  current : Option ℚ
  total : Option ℚ
  phase : Phase
deriving DecidableEq

/-- `sampling && typeof current === "number" && typeof total === "number"
&& Number(total) > 1` — the guard of the sampling and search branches. -/
def counterNumericGt1 (c : JsCounter) : Bool :=
  typeofNumber c.current && typeofNumber c.total && jsGt (jsToNumber c.total) (some 1)

/-- `typeof current === "number" && typeof total === "number"` — the
guard of the saving branch (no `total > 1` check in the source). -/
def counterNumeric (c : JsCounter) : Bool :=
  typeofNumber c.current && typeofNumber c.total

/-- `search && Number(search.total) <= 1` — the clearing guard of the
mid band. -/
def searchClears (ph : JsPhases) : Bool :=
  match ph.search_trials with
  | some c => jsLe (jsToNumber c.total) (some 1)
  | none => false

/-- The saving branch guard: a saving counter with numeric fields. -/
def savingUsable (ph : JsPhases) : Bool :=
  match ph.saving with
  | some c => counterNumeric c
  | none => false

/-- The search branch guard: a search counter with numeric fields and
`Number(total) > 1`. -/
def searchUsable (ph : JsPhases) : Bool :=
  match ph.search_trials with
  | some c => counterNumericGt1 c
  | none => false

/-- The per-phase hysteresis used by each `setPhaseDetail` updater:
`prev && prev.phase === X && prev.current > c ? prev : {current, total, phase}`. -/
def keepOrNew (prev : Option PhaseDetail) (ph : Phase) (c t : Option ℚ) : Option PhaseDetail :=
  match prev with
  | some pd => if decide (pd.phase = ph) && jsGt pd.current c then some pd else some ⟨c, t, ph⟩
  | none => some ⟨c, t, ph⟩

/-- Apply the saving branch (`setPhaseDetail` with the saving counter). -/
def savingApply (ph : JsPhases) (prev : Option PhaseDetail) : Option PhaseDetail :=
  match ph.saving with
  | some c => keepOrNew prev .saving (jsToNumber c.current) (jsToNumber c.total)
  | none => prev

/-- Apply the search branch (`setPhaseDetail` with the search counter). -/
def searchApply (ph : JsPhases) (prev : Option PhaseDetail) : Option PhaseDetail :=
  match ph.search_trials with
  | some c => keepOrNew prev .search_trials (jsToNumber c.current) (jsToNumber c.total)
  | none => prev

/-- The phase classification of the poll tick callback, lines 211-223 of
`mine.tsx`: the `if / else if` chain over the clamped progress and the
three counters, updating `phaseDetail`. -/
def phaseUpdate (progress : Option ℚ) (ph : JsPhases) (prev : Option PhaseDetail) :
    Option PhaseDetail :=
  if jsLt progress (some 20) then
    match ph.sampling with
    | some c =>
        if counterNumericGt1 c then keepOrNew prev .sampling (jsToNumber c.current) (jsToNumber c.total)
        else none
    | none => none
  else if jsGe progress (some 20) && jsLt progress (some 95) && searchClears ph then
    none
  else if jsGe progress (some 95) && savingUsable ph then
    savingApply ph prev
  else if jsGe progress (some 20) && searchUsable ph then
    searchApply ph prev
  else prev

/-- `pat` occurs at the head of `s` (character-list matcher). -/
def patAt : List Char → List Char → Bool
  | [], _ => true
  | _ :: _, [] => false
  | a :: as, b :: bs => a == b && patAt as bs

/-- `pat` occurs somewhere inside `s` (character-list matcher). -/
def patIn (pat : List Char) : List Char → Bool
  | [] => patAt pat []
  | b :: bs => patAt pat (b :: bs) || patIn pat bs

/-- `String(miningStatus).toLowerCase().includes("sampling")`. -/
def mentionsSampling (msg : String) : Bool :=
  patIn "sampling".data (msg.data.map Char.toLower)

/-- The render-time filter of the phase line (line 502 of `mine.tsx`):
the detail is shown only when `Number(total) > 1`, not in the dead
`search_trials`-0-of-1 case, and not as search while the status message
mentions sampling.  Returns the phase label actually surfaced. -/
def displayGate (pd? : Option PhaseDetail) (status : String) : Option Phase :=
  match pd? with
  | some pd =>
      if jsGt pd.total (some 1)
         && !(decide (pd.phase = .search_trials) && decide (pd.current = some 0)
              && decide (pd.total = some 1))
         && (!(decide (pd.phase = .search_trials)) || !(mentionsSampling status)) then
        some pd.phase
      else none
  | none => none

/-- A status payload (`res.data`) as read by the poll tick. -/
structure Snapshot where
  progress : JsVal
  message : Option String
  status : Option String
  phases : Option JsPhases
deriving DecidableEq

/-- `Math.min(100, Math.max(0, Number(data.progress) ?? 0))`.  The
`?? 0` in the source is dead: `Number` never returns `null`/`undefined`,
so a missing or non-numeric `progress` yields NaN (`none`) here. -/
def clampedProgress (d : Snapshot) : Option ℚ :=
  jsMin (some 100) (jsMax (some 0) (jsToNumber d.progress))

/-- `data.status === "completed" || progress >= 100` (clamped). -/
def snapCompleted (d : Snapshot) : Bool :=
  decide (d.status = some "completed") || jsGe (clampedProgress d) (some 100)

/-- The mining result descriptor (`miningResult` state). -/
structure MiningResult where
  downloadUrl : String
  patternsCount : Option ℚ
deriving DecidableEq

/-- A user-visible notification. -/
inductive Toast where
  | success (msg : String)
  | error (title desc : String)
deriving DecidableEq

/-- The reconciliation-relevant React state of the page, plus the list of
notifications surfaced so far. `pollActive` models `pollIntervalRef.current`
being set (the interval running). -/
structure MineState where
  jobId : String
  miningProgress : Option ℚ
  miningStatus : String
  phaseDetail : Option PhaseDetail
  maxProgressSeen : Option ℚ
  isMining : Bool
  miningResult : Option MiningResult
  completedShown : Bool
  pollActive : Bool
  toasts : List Toast
deriving DecidableEq

/-- The configured integration-service base URL (an opaque constant). -/
def integrationBaseURL : String := "http://integration"

/-- `baseURL + "/api/download-result?job_id=" + jobId` — the fallback
download descriptor. -/
def downloadResultUrl (jid : String) : String :=
  integrationBaseURL ++ "/api/download-result?job_id=" ++ jid

/-- The 0.5-point message/phase tolerance. -/
def half : ℚ := 1 / 2

/-- The completion toast / fallback completion message text. -/
def completedMsg : String := "Mining completed successfully!"

/-- The initial React state of the page. -/
def initState : MineState :=
  { jobId := ""
    miningProgress := some 0
    miningStatus := "Initializing..."
    phaseDetail := none
    maxProgressSeen := some 0
    isMining := false
    miningResult := none
    completedShown := false
    pollActive := false
    toasts := [] }

/-- Lines 200-204: clamp the payload progress, fold it into
`maxProgressSeenRef` and into the displayed progress via `Math.max`. -/
def tickProgress (d : Snapshot) (s : MineState) : MineState :=
  { s with maxProgressSeen := jsMax s.maxProgressSeen (clampedProgress d)
           miningProgress := jsMax s.miningProgress (clampedProgress d) }

/-- `m - 1/2 ≤ p` stated as the equivalent cross-multiplied integer
inequality (`2·m.num·p.den ≤ 2·p.num·m.den + m.den·p.den`), so that the
kernel can evaluate it; `subHalfLe_eq_spec` below proves it equal to the
direct subtraction form. -/
def subHalfLe (m p : ℚ) : Bool :=
  decide (2 * m.num * (p.den : ℤ) ≤ 2 * p.num * (m.den : ℤ) + (m.den : ℤ) * (p.den : ℤ))

/-- The tolerance gate `progress >= prevMax - 0.5` written as a direct
translation of the source expression. -/
def tickGateSpec (d : Snapshot) (prevMax : Option ℚ) : Bool :=
  jsGe (clampedProgress d) (jsSub prevMax half)

/-- The tolerance gate `progress >= prevMax - 0.5`, where `prevMax` is the
ref value read before this tick updated it (computable form; proved equal
to `tickGateSpec` in `tickGate_eq_spec`). -/
def tickGate (d : Snapshot) (prevMax : Option ℚ) : Bool :=
  match clampedProgress d, prevMax with
  | some p, some m => subHalfLe m p
  | _, _ => false

/-- Line 205: `if (progress >= prevMax - 0.5 && data.message != null)
setMiningStatus(data.message)`. -/
def tickMessage (d : Snapshot) (prevMax : Option ℚ) (s : MineState) : MineState :=
  if tickGate d prevMax then
    match d.message with
    | some m => { s with miningStatus := m }
    | none => s
  else s

/-- Lines 206-224: guarded phase classification. -/
def tickPhases (d : Snapshot) (prevMax : Option ℚ) (s : MineState) : MineState :=
  match d.phases with
  | some ph =>
      if tickGate d prevMax then
        { s with phaseDetail := phaseUpdate (clampedProgress d) ph s.phaseDetail }
      else s
  | none => s

/-- Lines 227-241: the completion branch.  Fires only while the interval
ref is still set; clears it, pins progress to 100, sets the message, the
fallback result descriptor, ends the run and fires the completion toast. -/
def tickComplete (d : Snapshot) (s : MineState) : MineState :=
  if snapCompleted d && s.pollActive then
    { s with pollActive := false
             miningProgress := some 100
             miningStatus := jsOrString d.message completedMsg
             miningResult := some ⟨downloadResultUrl s.jobId, none⟩
             isMining := false
             completedShown := true
             toasts := s.toasts ++ [Toast.success completedMsg] }
  else s

/-- One poll tick callback (lines 196-242): `none` models a falsy
`res.data` (the `if (data)` guard skips the whole body). -/
def pollTick : Option Snapshot → MineState → MineState
  | none, s => s
  | some d, s =>
      tickComplete d (tickPhases d s.maxProgressSeen (tickMessage d s.maxProgressSeen
        (tickProgress d s)))

/-- The mining form values (all React string state, sent verbatim as
form data). -/
structure MiningFormState where
  jobId : String
  minPatternSize : String
  maxPatternSize : String
  minNeighborhoodSize : String
  maxNeighborhoodSize : String
  nNeighborhoods : String
  nTrials : String
  outBatchSize : String
  searchStrategy : String
  sampleMethod : String
  graphType : String
  outputFormat : String
deriving DecidableEq

/-- `startMining` up to the network call (lines 127-154): the only
validation is the truthiness check on `jobId`; on success the request is
issued carrying the form values verbatim (`some f`), otherwise no
request is made (`none`). -/
def startMiningStep (f : MiningFormState) (s : MineState) :
    MineState × Option MiningFormState :=
  if f.jobId = "" then
    ({ s with toasts := s.toasts ++ [Toast.error "Please provide a Job ID" ""] }, none)
  else
    ({ s with isMining := true, miningResult := none, completedShown := false }, some f)

/-- The body of the `POST /api/mine-patterns` response. -/
structure StartResponse where
  download_url : Option String
  patterns_count : Option ℚ
deriving DecidableEq

/-- Lines 159-167 and the `finally` (169-181): the start call resolving.
The result is set unconditionally from the response (fallback URL when
`download_url` is falsy); the success toast fires only when the poll
tick has not already shown completion; the run ends and polling stops
(the effect cleanup clears the interval once `isMining` turns false). -/
def startResolveStep (resp : StartResponse) (s : MineState) : MineState :=
  let s1 := { s with
    miningResult := some ⟨jsOrString resp.download_url (downloadResultUrl s.jobId),
                          resp.patterns_count⟩ }
  let s2 := if s1.completedShown then s1
            else { s1 with toasts := s1.toasts ++ [Toast.success completedMsg] }
  { s2 with isMining := false, pollActive := false }

/-- What the catch block can read off a rejected start call. -/
structure ErrInfo where
  responseDetail : Option String
  message : Option String
deriving DecidableEq

/-- `error.response?.data?.detail || error.message || "Unknown error occurred"`. -/
def errDescription (e : ErrInfo) : String :=
  jsOrString e.responseDetail (jsOrString e.message "Unknown error occurred")

/-- Lines 169-181: the start call rejecting — surface the error toast,
end the run and stop polling; `miningResult` is not touched. -/
def startRejectStep (e : ErrInfo) (s : MineState) : MineState :=
  { s with toasts := s.toasts ++ [Toast.error "Mining failed" (errDescription e)]
           isMining := false
           pollActive := false }

/-- Starting a run: the click handler's state resets combined with the
polling effect body (lines 134-136 and 188-193). -/
def runStartState (jid : String) (s : MineState) : MineState :=
  { s with jobId := jid
           isMining := true
           miningResult := none
           completedShown := false
           miningProgress := some 0
           miningStatus := "Starting miner..."
           phaseDetail := none
           maxProgressSeen := some 0
           pollActive := true }

/-- System state: the page state plus a run-epoch counter.  The epoch is
modelling apparatus for staleness (which run is current); the source code
itself stores no epoch. -/
structure SysState where
  epoch : ℕ
  core : MineState
deriving DecidableEq

/-- Asynchronous events delivered to the page.  Ticks carry the epoch of
the run that scheduled them, so that stale deliveries can be stated. -/
inductive Ev where
  | tick (tag : ℕ) (data : Option Snapshot)
  | tickFail (tag : ℕ)
  | startResolve (resp : StartResponse)
  | startReject (e : ErrInfo)
  | runStart (jid : String)
deriving DecidableEq

/-- The event step.  The tick handler consults no epoch — the source has
no such check — so the tag is ignored; a failed tick only logs
(`console.warn`) and changes nothing; starting a run bumps the epoch. -/
def stepEv (s : SysState) : Ev → SysState
  | .tick _tag d => { s with core := pollTick d s.core }
  | .tickFail _tag => s
  | .startResolve r => { s with core := startResolveStep r s.core }
  | .startReject e => { s with core := startRejectStep e s.core }
  | .runStart jid => { epoch := s.epoch + 1, core := runStartState jid s.core }

/-- `writer_type` of a history record. -/
inductive WType where
  | networkx
  | mork
  | other
deriving DecidableEq

/-- A history entry as used by the selector (`imported_on` in whole
seconds, the granularity of the source's dayjs `diff(…, 'second')`). -/
structure JobRecord where
  job_id : String
  writer_type : WType
  imported_on : ℤ
deriving DecidableEq

/-- The sibling predicate (line 91-94): a networkx record imported within
60 seconds of the matched record. -/
def isBrother (cur h : JobRecord) : Bool :=
  decide (h.writer_type = WType.networkx) && decide (|h.imported_on - cur.imported_on| < 60)

/-- Lines 85-104 of `initData`: resolve the best matching record from the
history for an optional requested id (`none` models a falsy target). -/
def bestMatchFor (history : List JobRecord) (target : Option String) : Option JobRecord :=
  let viaTarget : Option JobRecord :=
    match target with
    | none => none
    | some t =>
        match history.find? (fun h => h.job_id == t) with
        | none => none
        | some cur =>
            if cur.writer_type = WType.mork then
              some ((history.find? (isBrother cur)).getD cur)
            else some cur
  match viaTarget with
  | some m => some m
  | none =>
      match history.find? (fun h => decide (h.writer_type = WType.networkx)) with
      | some nx => some nx
      | none => history.head?

/-- The job id the page activates (lines 83-109): nothing is selected on
an empty history; otherwise the best match's id. -/
def selectTargetJob (history : List JobRecord) (target : Option String) : Option String :=
  if history.isEmpty then none
  else (bestMatchFor history target).map (fun r => r.job_id)

/-- The first entry of the list with `writer_type = networkx` (spec-side
description of the fallback the code's `find` implements). -/
def firstNetworkx : List JobRecord → Option JobRecord
  | [] => none
  | h :: t => if h.writer_type = WType.networkx then some h else firstNetworkx t

/-- "No requested job id matches any history entry". -/
def noIdMatch (history : List JobRecord) (target : Option String) : Prop :=
  ∀ h ∈ history, target ≠ some h.job_id

instance (history : List JobRecord) (target : Option String) :
    Decidable (noIdMatch history target) := by
  unfold noIdMatch
  infer_instance

/-- Decimal value of a digits-only string (used to state, about the raw
form strings, which size is numerically smaller). -/
def decValAux : List Char → ℕ → Option ℕ
  | [], acc => some acc
  | c :: cs, acc => if c.isDigit then decValAux cs (acc * 10 + (c.toNat - 48)) else none

/-- Decimal value of a form field string. -/
def decVal (s : String) : Option ℕ :=
  if s.data.isEmpty then none else decValAux s.data 0

/-- Spec-side classifier following the amended claim C5's words: bands
evaluated low/mid/high with the code's fallthrough made explicit — a
present search counter with `total <= 1` clears only in the mid band, a
numeric saving counter takes priority at and above 95, a search counter
with `total > 1` is used anywhere at or above 20 when the earlier
branches do not apply, and otherwise the previous detail persists. -/
def amendedClassify (prev : Option PhaseDetail) (p : ℚ) (ph : JsPhases) : Option PhaseDetail :=
  if p < 20 then
    match ph.sampling with
    | some c =>
        if counterNumericGt1 c then keepOrNew prev .sampling (jsToNumber c.current) (jsToNumber c.total)
        else none
    | none => none
  else if p < 95 then
    if searchClears ph then none
    else if searchUsable ph then searchApply ph prev
    else prev
  else
    if savingUsable ph then savingApply ph prev
    else if searchUsable ph then searchApply ph prev
    else prev

/-! Concrete inputs used by counterexamples and witnesses. -/

/-- A freshly started run for job "job1". -/
def runS : MineState := runStartState "job1" initState

/-- Mid-run state: displayed progress 50, message "working". -/
def s50 : MineState :=
  { runS with miningProgress := some 50, maxProgressSeen := some 50, miningStatus := "working" }

/-- A payload with no progress field at all (`Number(undefined)` = NaN). -/
def snapNaN : Snapshot := { progress := .undef, message := none, status := none, phases := none }

/-- A completed payload at progress 100 with no message. -/
def snapDone : Snapshot :=
  { progress := .num 100, message := none, status := some "completed", phases := none }

/-- A late out-of-order payload at progress 90. -/
def snap90 : Snapshot :=
  { progress := .num 90, message := some "late", status := none, phases := none }

/-- A completed payload whose own progress (10) is far below the maximum
already seen. -/
def snapLowDone : Snapshot :=
  { progress := .num 10, message := some "done", status := some "completed", phases := none }

/-- A start-call response carrying an explicit descriptor and count. -/
def respX : StartResponse := { download_url := some "http://x/file.zip", patterns_count := some 7 }

/-- System state in run epoch 1, mid-run. -/
def sysMid : SysState := { epoch := 1, core := s50 }

/-- An error with neither a response detail nor a message. -/
def errNone : ErrInfo := ⟨none, none⟩

/-- A phases record with only a well-subdivided search counter. -/
def phSearchOnly : JsPhases :=
  { search_trials := some ⟨.num 5, .num 10⟩, sampling := none, saving := none }

/-- A phases record with only a sampling counter 3/10. -/
def phSamp : JsPhases :=
  { search_trials := none, sampling := some ⟨.num 3, .num 10⟩, saving := none }

/-- A phases record with only a degenerate search counter 0/1. -/
def phS01 : JsPhases :=
  { search_trials := some ⟨.num 0, .num 1⟩, sampling := none, saving := none }

/-- A stored search-phase detail 5 of 10. -/
def pdSearch : PhaseDetail := ⟨some 5, some 10, Phase.search_trials⟩

/-- A stored sampling-phase detail 3 of 10. -/
def pdSamp : PhaseDetail := ⟨some 3, some 10, Phase.sampling⟩

/-- Mid-run state currently showing the sampling detail. -/
def sPhase : MineState := { s50 with phaseDetail := some pdSamp }

/-- A mid-band payload whose phases mapping has no search counter. -/
def snapMidNoSearch : Snapshot :=
  { progress := .num 50, message := none, status := none, phases := some phSamp }

/-- A mid-band payload with a degenerate search counter 0/1. -/
def snapMidClear : Snapshot :=
  { progress := .num 50, message := none, status := none, phases := some phS01 }

/-- A form whose max pattern size (3) is numerically below its min (5). -/
def badForm : MiningFormState :=
  ⟨"job1", "5", "3", "3", "5", "500", "100", "3", "greedy", "tree", "directed", "representative"⟩

/-- History: a mork record at t = 0 with a networkx sibling at t = 45 s. -/
def histC6 : List JobRecord := [⟨"m", .mork, 0⟩, ⟨"n", .networkx, 45⟩]

/-- History: a mork record at t = 0 whose only networkx record is 90 s away. -/
def histC6far : List JobRecord := [⟨"m", .mork, 0⟩, ⟨"n", .networkx, 90⟩]

/-- History with two networkx records, the older one listed first. -/
def histC7 : List JobRecord := [⟨"a", .networkx, 0⟩, ⟨"b", .networkx, 100⟩]

/-- History with one mork and one networkx record, for the fallback witness. -/
def histC7b : List JobRecord := [⟨"m0", .mork, 0⟩, ⟨"n0", .networkx, 5⟩]

end MinePage

namespace MinePage

/-! Helper lemmas shared by the claim theorems. -/

theorem subHalfLe_eq_spec (m p : ℚ) : subHalfLe m p = decide (m - half ≤ p) := by
  unfold subHalfLe half
  rw [decide_eq_decide]
  have hmd : (0 : ℚ) < (m.den : ℚ) := by exact_mod_cast m.den_pos
  have hpd : (0 : ℚ) < (p.den : ℚ) := by exact_mod_cast p.den_pos
  have hm : (m.num : ℚ) = m * (m.den : ℚ) :=
    (div_eq_iff (ne_of_gt hmd)).mp (Rat.num_div_den m)
  have hp : (p.num : ℚ) = p * (p.den : ℚ) :=
    (div_eq_iff (ne_of_gt hpd)).mp (Rat.num_div_den p)
  constructor
  · intro h
    have h' : (2 : ℚ) * m.num * p.den ≤ 2 * p.num * m.den + m.den * p.den := by exact_mod_cast h
    rw [hm, hp] at h'
    nlinarith [mul_pos hmd hpd]
  · intro h
    have h' : (2 : ℚ) * m.num * p.den ≤ 2 * p.num * m.den + m.den * p.den := by
      rw [hm, hp]
      nlinarith [mul_pos hmd hpd]
    exact_mod_cast h'

theorem tickGate_eq_spec (d : Snapshot) (pm : Option ℚ) :
    tickGate d pm = tickGateSpec d pm := by
  unfold tickGate tickGateSpec jsGe jsSub
  cases hc : clampedProgress d with
  | none => cases pm <;> rfl
  | some p =>
      cases pm with
      | none => rfl
      | some m => simp [subHalfLe_eq_spec, sub_le_iff_le_add, le_sub_iff_add_le]

theorem tickMessage_eq_update (d : Snapshot) (pm : Option ℚ) (s : MineState) :
    ∃ msg, tickMessage d pm s = { s with miningStatus := msg } := by
  unfold tickMessage
  split
  · cases d.message with
    | some m => exact ⟨m, rfl⟩
    | none => exact ⟨s.miningStatus, rfl⟩
  · exact ⟨s.miningStatus, rfl⟩

theorem tickPhases_eq_update (d : Snapshot) (pm : Option ℚ) (s : MineState) :
    ∃ pd, tickPhases d pm s = { s with phaseDetail := pd } := by
  unfold tickPhases
  cases d.phases with
  | none => exact ⟨s.phaseDetail, rfl⟩
  | some ph =>
      simp only []
      split
      · exact ⟨phaseUpdate (clampedProgress d) ph s.phaseDetail, rfl⟩
      · exact ⟨s.phaseDetail, rfl⟩

theorem tickComplete_phaseDetail (d : Snapshot) (s : MineState) :
    (tickComplete d s).phaseDetail = s.phaseDetail := by
  unfold tickComplete
  split <;> rfl

theorem tickPhases_phaseDetail (d : Snapshot) (pm : Option ℚ) (s : MineState) (ph : JsPhases)
    (hph : d.phases = some ph) :
    (tickPhases d pm s).phaseDetail =
      if tickGate d pm then phaseUpdate (clampedProgress d) ph s.phaseDetail
      else s.phaseDetail := by
  have h : tickPhases d pm s =
      if tickGate d pm then
        { s with phaseDetail := phaseUpdate (clampedProgress d) ph s.phaseDetail }
      else s := by
    unfold tickPhases
    rw [hph]
  rw [h]
  split <;> rfl

theorem phaseUpdate_mid_band (q : ℚ) (ph : JsPhases) (prev : Option PhaseDetail)
    (h20 : 20 ≤ q) (h95 : q < 95) :
    phaseUpdate (some q) ph prev =
      if searchClears ph then none
      else if searchUsable ph then searchApply ph prev
      else prev := by
  unfold phaseUpdate jsLt jsGe
  simp [not_lt.mpr h20, h20, not_le.mpr h95, h95]

theorem keepOrNew_isSome (prev : Option PhaseDetail) (ph : Phase) (c t : Option ℚ) :
    keepOrNew prev ph c t ≠ none := by
  cases prev with
  | none => simp [keepOrNew]
  | some pd =>
      simp only [keepOrNew]
      split <;> simp

theorem find?_networkx_eq (l : List JobRecord) :
    l.find? (fun h => decide (h.writer_type = WType.networkx)) = firstNetworkx l := by
  induction l with
  | nil => rfl
  | cons a t ih =>
      by_cases h : a.writer_type = WType.networkx <;>
        simp [List.find?_cons, firstNetworkx, h, ih]

/-! The claim theorems. -/

/-- C1 (counterexample): with the poll tick finalizing first (completed
payload), the later start-call resolution replaces the MiningResult the
poll tick produced — the claim's "neither replaces that MiningResult"
fails at this concrete run. -/
theorem c1_result_replaced_cex :
    (pollTick (some snapDone) runS).miningResult = some ⟨downloadResultUrl "job1", none⟩ ∧
    (startResolveStep respX (pollTick (some snapDone) runS)).miningResult
      = some ⟨"http://x/file.zip", some 7⟩ ∧
    (startResolveStep respX (pollTick (some snapDone) runS)).miningResult
      ≠ (pollTick (some snapDone) runS).miningResult := by decide

/-- C1 (amended): if a poll tick finalizes the run first, the MiningResult
at that point comes from the poll tick (fallback descriptor, no count),
completion is recorded as shown, and the later start-call resolution adds
no further notification — but it does overwrite the MiningResult with one
built from the response body. -/
theorem c1_poll_first_finalization (s : MineState) (d : Snapshot) (resp : StartResponse)
    (hact : s.pollActive = true) (hdone : snapCompleted d = true) :
    (pollTick (some d) s).miningResult = some ⟨downloadResultUrl s.jobId, none⟩ ∧
    (pollTick (some d) s).completedShown = true ∧
    (startResolveStep resp (pollTick (some d) s)).toasts = (pollTick (some d) s).toasts ∧
    (startResolveStep resp (pollTick (some d) s)).miningResult
      = some ⟨jsOrString resp.download_url (downloadResultUrl s.jobId), resp.patterns_count⟩ := by
  obtain ⟨msg, hmsg⟩ := tickMessage_eq_update d s.maxProgressSeen (tickProgress d s)
  obtain ⟨pd, hpd⟩ := tickPhases_eq_update d s.maxProgressSeen
    (tickMessage d s.maxProgressSeen (tickProgress d s))
  have hpoll : pollTick (some d) s = tickComplete d
      (tickPhases d s.maxProgressSeen (tickMessage d s.maxProgressSeen (tickProgress d s))) := rfl
  rw [hpoll, hpd, hmsg]
  simp [tickComplete, tickProgress, startResolveStep, hdone, hact]

/-- C1 (witness): the amended theorem at the concrete run of the
counterexample. -/
theorem c1_poll_first_finalization_witness :
    (pollTick (some snapDone) runS).miningResult = some ⟨downloadResultUrl runS.jobId, none⟩ ∧
    (pollTick (some snapDone) runS).completedShown = true ∧
    (startResolveStep respX (pollTick (some snapDone) runS)).toasts
      = (pollTick (some snapDone) runS).toasts ∧
    (startResolveStep respX (pollTick (some snapDone) runS)).miningResult
      = some ⟨jsOrString respX.download_url (downloadResultUrl runS.jobId),
              respX.patterns_count⟩ :=
  c1_poll_first_finalization runS snapDone respX (by decide) (by decide)

/-- C2 (code bug): a snapshot with no progress field drives the displayed
progress from 50 to NaN (`none`) and NaN-poisons the running maximum —
the dead `?? 0` in `Number(data.progress) ?? 0` shows 0 was intended. -/
theorem c2_nan_progress_eval :
    s50.miningProgress = some 50 ∧
    (pollTick (some snapNaN) s50).miningProgress = none ∧
    (pollTick (some snapNaN) s50).maxProgressSeen = none := by decide

/-- C3 (counterexample): a tick tagged with superseded epoch 0 arriving in
epoch 1 mutates the current run state — the claimed stale-epoch discard
does not exist. -/
theorem c3_stale_tick_mutates_cex :
    (0 : ℕ) ≠ sysMid.epoch ∧ stepEv sysMid (.tick 0 (some snap90)) ≠ sysMid := by decide

/-- C3 (amended): the poll handler consults no run epoch at all — a tick
is processed identically whatever run tag it carries, so a late snapshot
from a superseded run is applied to the current state exactly as a fresh
one would be, not discarded. -/
theorem c3_tick_ignores_epoch (s : SysState) (t1 t2 : ℕ) (d : Option Snapshot) :
    stepEv s (.tick t1 d) = stepEv s (.tick t2 d) := rfl

/-- C4 (counterexample): a form with max pattern size 3 below min 5 and a
non-empty job id still issues the start request — no size validation
precedes the network call. -/
theorem c4_no_size_validation_cex :
    decVal badForm.maxPatternSize = some 3 ∧ decVal badForm.minPatternSize = some 5 ∧
    (3 : ℕ) < 5 ∧ (startMiningStep badForm initState).2 = some badForm := by decide

/-- C4 (amended): the only validation before the network call is the
non-empty job-id check; with a non-empty job id the request is always
issued, carrying the form values verbatim. -/
theorem c4_request_iff_jobid (f : MiningFormState) (s : MineState) :
    (startMiningStep f s).2 = if f.jobId = "" then none else some f := by
  unfold startMiningStep
  split <;> rfl

/-- C5 (counterexample): at progress 97 with no saving counter and a
search counter 5/10, the surfaced phase is "search_trials", not the
claimed none/saving. -/
theorem c5_high_band_search_cex :
    phSearchOnly.saving = none ∧
    displayGate (phaseUpdate (some 97) phSearchOnly none) "Mining in progress..."
      = some Phase.search_trials := by decide

/-- C5 (amended): the classifier equals the band-wise description with the
fallthrough made explicit (`amendedClassify`), and the render filter never
surfaces a detail whose total is not a number greater than 1. -/
theorem c5_phase_classifier_amended :
    (∀ (prev : Option PhaseDetail) (p : ℚ) (ph : JsPhases),
        phaseUpdate (some p) ph prev = amendedClassify prev p ph) ∧
    (∀ (pd : PhaseDetail) (st : String),
        displayGate (some pd) st ≠ none → jsGt pd.total (some 1) = true) := by
  constructor
  · intro prev p ph
    unfold phaseUpdate amendedClassify jsLt jsGe
    by_cases h1 : p < 20
    · simp [h1]
    · have h1' : (20 : ℚ) ≤ p := not_lt.mp h1
      by_cases h2 : p < 95
      · have h2' : ¬(95 : ℚ) ≤ p := not_le.mpr h2
        simp [h1, h1', h2, h2']
      · have h2' : (95 : ℚ) ≤ p := not_lt.mp h2
        simp [h1, h1', h2, h2']
  · intro pd st h
    unfold displayGate at h
    by_cases hgt : jsGt pd.total (some 1) = true
    · exact hgt
    · simp [hgt] at h

/-- C5 (witness): the amended characterization at progress 97 with only a
search counter, and the display filter at a 5-of-10 search detail. -/
theorem c5_phase_classifier_amended_witness :
    phaseUpdate (some 97) phSearchOnly none = amendedClassify none 97 phSearchOnly ∧
    jsGt pdSearch.total (some 1) = true :=
  ⟨c5_phase_classifier_amended.1 none 97 phSearchOnly,
   c5_phase_classifier_amended.2 pdSearch "x" (by decide)⟩

/-- C6: a requested id matching a mork record takes a networkx sibling
imported strictly within 60 seconds when one exists, and keeps the mork
record's id when every networkx record is 60 or more seconds away. -/
theorem c6_mork_sibling_selection (history : List JobRecord) (t : String) (cur : JobRecord)
    (hfind : history.find? (fun h => h.job_id == t) = some cur)
    (hmork : cur.writer_type = WType.mork) :
    ((∃ nx ∈ history, nx.writer_type = WType.networkx ∧
        |nx.imported_on - cur.imported_on| < 60) →
      ∃ nx ∈ history, nx.writer_type = WType.networkx ∧
        |nx.imported_on - cur.imported_on| < 60 ∧
        selectTargetJob history (some t) = some nx.job_id) ∧
    ((∀ nx ∈ history, nx.writer_type = WType.networkx →
        60 ≤ |nx.imported_on - cur.imported_on|) →
      selectTargetJob history (some t) = some cur.job_id) := by
  have hne : history.isEmpty = false := by
    cases history with
    | nil => simp at hfind
    | cons a l => rfl
  constructor
  · rintro ⟨nx0, hmem0, hwt0, hd0⟩
    have hsome : (history.find? (isBrother cur)).isSome := by
      rw [List.find?_isSome]
      exact ⟨nx0, hmem0, by simp [isBrother, hwt0, hd0]⟩
    obtain ⟨nx, hnx⟩ := Option.isSome_iff_exists.mp hsome
    have hmem := List.mem_of_find?_eq_some hnx
    have hp := List.find?_some hnx
    simp only [isBrother, Bool.and_eq_true, decide_eq_true_eq] at hp
    refine ⟨nx, hmem, hp.1, hp.2, ?_⟩
    simp [selectTargetJob, hne, bestMatchFor, hfind, hmork, hnx]
  · intro hall
    have hnone : history.find? (isBrother cur) = none := by
      rw [List.find?_eq_none]
      intro x hx
      simp only [isBrother, Bool.and_eq_true, decide_eq_true_eq, not_and]
      intro hwt
      exact not_lt.mpr (hall x hx hwt)
    simp [selectTargetJob, hne, bestMatchFor, hfind, hmork, hnone]

/-- C6 (witness): the sibling at 45 s is taken; the sibling at 90 s is
not, keeping the mork id. -/
theorem c6_mork_sibling_selection_witness :
    (∃ nx ∈ histC6, nx.writer_type = WType.networkx ∧
      |nx.imported_on - (⟨"m", WType.mork, 0⟩ : JobRecord).imported_on| < 60 ∧
      selectTargetJob histC6 (some "m") = some nx.job_id) ∧
    selectTargetJob histC6far (some "m") = some "m" :=
  ⟨(c6_mork_sibling_selection histC6 "m" ⟨"m", WType.mork, 0⟩ (by decide) rfl).1
      (by decide),
   (c6_mork_sibling_selection histC6far "m" ⟨"m", WType.mork, 0⟩ (by decide) rfl).2
      (by decide)⟩

/-- C7 (counterexample): with no requested id, the selector returns the
first networkx entry in list order ("a", imported at 0), not the most
recent one ("b", imported at 100). -/
theorem c7_most_recent_cex :
    selectTargetJob histC7 none = some "a" ∧
    (⟨"b", WType.networkx, 100⟩ : JobRecord) ∈ histC7 ∧
    (∀ h ∈ histC7, h.writer_type = WType.networkx → h.imported_on ≤ 100) ∧
    (∀ h ∈ histC7, h.job_id = "a" → h.imported_on = 0) ∧
    ("a" : String) ≠ "b" := by decide

/-- C7 (amended): when no requested id matches any history entry, the
selector falls back to the first entry in list order with
`writerType = networkx` (the most recent only when the list is
newest-first); with no networkx entry it falls back to the first history
entry, and on an empty history nothing is selected. -/
theorem c7_fallback_first_networkx (history : List JobRecord) (target : Option String)
    (hnomatch : noIdMatch history target) :
    selectTargetJob history target =
      (match firstNetworkx history with
       | some nx => some nx.job_id
       | none => history.head?.map (fun r => r.job_id)) := by
  cases history with
  | nil => cases target <;> rfl
  | cons a l =>
      have hne : (a :: l).isEmpty = false := rfl
      have hvia : ∀ t, target = some t →
          (a :: l).find? (fun h => h.job_id == t) = none := by
        intro t ht
        rw [List.find?_eq_none]
        intro x hx
        have := hnomatch x hx
        rw [ht] at this
        simp only [ne_eq, Option.some.injEq] at this
        simpa using fun hc => this hc.symm
      unfold selectTargetJob bestMatchFor
      rw [find?_networkx_eq]
      cases target with
      | none =>
          simp only [hne]
          cases hfn : firstNetworkx (a :: l) <;> simp [hfn]
      | some t =>
          simp only [hne, hvia t rfl]
          cases hfn : firstNetworkx (a :: l) <;> simp [hfn]

/-- C7 (witness): the amended fallback at a history whose only networkx
entry is "n0", requested id "z" matching nothing. -/
theorem c7_fallback_first_networkx_witness :
    noIdMatch histC7b (some "z") ∧ selectTargetJob histC7b (some "z") = some "n0" :=
  ⟨by decide,
   (c7_fallback_first_networkx histC7b (some "z") (by decide)).trans (by decide)⟩

/-- C8: a failed poll tick and a falsy poll payload change nothing (no
toast, polling continues), while a rejected start call stops the poller,
adds the failure toast with the derived description (generic text when no
detail/message is available) and leaves the result unset. -/
theorem c8_error_paths (s : SysState) (tag : ℕ) (e : ErrInfo)
    (hres : s.core.miningResult = none) :
    stepEv s (.tickFail tag) = s ∧
    stepEv s (.tick tag none) = s ∧
    (stepEv s (.startReject e)).core.pollActive = false ∧
    (stepEv s (.startReject e)).core.miningResult = none ∧
    (stepEv s (.startReject e)).core.toasts
      = s.core.toasts ++ [Toast.error "Mining failed" (errDescription e)] ∧
    (e.responseDetail = none → e.message = none →
      errDescription e = "Unknown error occurred") := by
  refine ⟨rfl, rfl, rfl, ?_, rfl, ?_⟩
  · simpa [stepEv, startRejectStep] using hres
  · intro h1 h2
    simp [errDescription, jsOrString, h1, h2]

/-- C8 (witness): the error paths applied in the mid-run state with a
bare rejection. -/
theorem c8_error_paths_witness :
    stepEv sysMid (.tickFail 0) = sysMid ∧
    stepEv sysMid (.tick 0 none) = sysMid ∧
    (stepEv sysMid (.startReject errNone)).core.pollActive = false ∧
    (stepEv sysMid (.startReject errNone)).core.miningResult = none ∧
    (stepEv sysMid (.startReject errNone)).core.toasts
      = sysMid.core.toasts ++ [Toast.error "Mining failed" (errDescription errNone)] ∧
    (errNone.responseDetail = none → errNone.message = none →
      errDescription errNone = "Unknown error occurred") :=
  c8_error_paths sysMid 0 errNone (by decide)

/-- C9 (counterexample): a completed payload at progress 10, below the
50 − 0.5 threshold, still replaces the displayed message through the
completion branch. -/
theorem c9_completion_message_cex :
    s50.miningStatus = "working" ∧ s50.maxProgressSeen = some 50 ∧
    clampedProgress snapLowDone = some 10 ∧
    tickGateSpec snapLowDone s50.maxProgressSeen = false ∧
    (pollTick (some snapLowDone) s50).miningStatus = "done" := by
  refine ⟨rfl, rfl, by decide, ?_, by decide⟩
  rw [← tickGate_eq_spec]
  decide

/-- C9 (amended): for a non-terminal snapshot the message changes only
when its clamped progress is at or above the previous maximum minus 0.5
and the message is non-null, and is otherwise unchanged; a terminal
snapshot processed while the poller is active sets the message
unconditionally (its message, or the completion text when falsy). -/
theorem c9_message_tolerance_amended (s : MineState) (d : Snapshot) :
    (snapCompleted d = false →
      (pollTick (some d) s).miningStatus =
        if tickGateSpec d s.maxProgressSeen then
          (match d.message with | some m => m | none => s.miningStatus)
        else s.miningStatus) ∧
    (snapCompleted d = true → s.pollActive = true →
      (pollTick (some d) s).miningStatus = jsOrString d.message completedMsg) := by
  have hpoll : pollTick (some d) s = tickComplete d
      (tickPhases d s.maxProgressSeen (tickMessage d s.maxProgressSeen (tickProgress d s))) := rfl
  constructor
  · intro hnc
    obtain ⟨pd, hpd⟩ := tickPhases_eq_update d s.maxProgressSeen
      (tickMessage d s.maxProgressSeen (tickProgress d s))
    rw [hpoll, hpd]
    rw [← tickGate_eq_spec]
    simp only [tickComplete, hnc, Bool.false_and, if_neg (by simp : ¬(false = true))]
    unfold tickMessage
    split
    · rename_i hgate
      cases d.message <;> simp [hgate, tickProgress]
    · rename_i hgate
      simp only [Bool.not_eq_true] at hgate
      simp [hgate, tickProgress]
  · intro hdone hact
    obtain ⟨msg, hmsg⟩ := tickMessage_eq_update d s.maxProgressSeen (tickProgress d s)
    obtain ⟨pd, hpd⟩ := tickPhases_eq_update d s.maxProgressSeen
      (tickMessage d s.maxProgressSeen (tickProgress d s))
    rw [hpoll, hpd, hmsg]
    simp [tickComplete, tickProgress, hdone, hact]

/-- C9 (witness): the amended message rule at a non-terminal out-of-order
tick and at the low-progress terminal tick. -/
theorem c9_message_tolerance_amended_witness :
    ((pollTick (some snap90) s50).miningStatus =
      if tickGateSpec snap90 s50.maxProgressSeen then
        (match snap90.message with | some m => m | none => s50.miningStatus)
      else s50.miningStatus) ∧
    ((pollTick (some snapLowDone) s50).miningStatus
      = jsOrString snapLowDone.message completedMsg) :=
  ⟨(c9_message_tolerance_amended s50 snap90).1 (by decide),
   (c9_message_tolerance_amended s50 snapLowDone).2 (by decide) (by decide)⟩

/-- C10: while progress is in [20, 95), a snapshot whose phases mapping
has no search counter leaves the phase detail unchanged, and the detail is
cleared to none in that band only when a search counter is present whose
numeric conversion of `total` is at most 1. -/
theorem c10_phase_frame_inactive (s : MineState) (d : Snapshot) (ph : JsPhases) (q : ℚ)
    (hp : clampedProgress d = some q) (h20 : 20 ≤ q) (h95 : q < 95)
    (hph : d.phases = some ph) :
    (ph.search_trials = none → (pollTick (some d) s).phaseDetail = s.phaseDetail) ∧
    ((pollTick (some d) s).phaseDetail = none → s.phaseDetail ≠ none →
      ∃ c, ph.search_trials = some c ∧ jsLe (jsToNumber c.total) (some 1) = true) := by
  obtain ⟨msg, hmsg⟩ := tickMessage_eq_update d s.maxProgressSeen (tickProgress d s)
  have hpoll : pollTick (some d) s = tickComplete d
      (tickPhases d s.maxProgressSeen (tickMessage d s.maxProgressSeen (tickProgress d s))) := rfl
  have hprev : (tickMessage d s.maxProgressSeen (tickProgress d s)).phaseDetail
      = s.phaseDetail := by rw [hmsg]; rfl
  have hpdet : (pollTick (some d) s).phaseDetail =
      if tickGate d s.maxProgressSeen then phaseUpdate (clampedProgress d) ph s.phaseDetail
      else s.phaseDetail := by
    rw [hpoll, tickComplete_phaseDetail,
      tickPhases_phaseDetail d s.maxProgressSeen _ ph hph, hprev]
  rw [hpdet, hp, phaseUpdate_mid_band q ph s.phaseDetail h20 h95]
  constructor
  · intro hs
    simp [searchClears, searchUsable, hs]
  · intro hnone hprev'
    by_cases hgate : tickGate d s.maxProgressSeen = true
    · rw [if_pos hgate] at hnone
      by_cases hcl : searchClears ph = true
      · unfold searchClears at hcl
        cases hsp : ph.search_trials with
        | none => rw [hsp] at hcl; simp at hcl
        | some c => rw [hsp] at hcl; exact ⟨c, rfl, hcl⟩
      · rw [if_neg (by simpa using hcl)] at hnone
        by_cases hus : searchUsable ph = true
        · rw [if_pos hus] at hnone
          unfold searchApply at hnone
          cases hsp : ph.search_trials with
          | none => rw [hsp] at hnone; exact absurd hnone hprev'
          | some c => rw [hsp] at hnone; exact absurd hnone (keepOrNew_isSome _ _ _ _)
        · rw [if_neg (by simpa using hus)] at hnone
          exact absurd hnone hprev'
    · rw [if_neg hgate] at hnone
      exact absurd hnone hprev'

/-- C10 (witness): at progress 50, a payload without a search counter
keeps the shown sampling detail, and the 0-of-1 search counter that does
clear it satisfies the `total <= 1` condition. -/
theorem c10_phase_frame_inactive_witness :
    (pollTick (some snapMidNoSearch) sPhase).phaseDetail = sPhase.phaseDetail ∧
    (∃ c, phS01.search_trials = some c ∧ jsLe (jsToNumber c.total) (some 1) = true) :=
  ⟨(c10_phase_frame_inactive sPhase snapMidNoSearch phSamp 50
      (by decide) (by decide) (by decide) (by decide)).1 (by decide),
   (c10_phase_frame_inactive sPhase snapMidClear phS01 50
      (by decide) (by decide) (by decide) (by decide)).2 (by decide) (by decide)⟩

end MinePage
